import Mathlib

/-
Verification of the Double-DQN + Prioritized-Experience-Replay core of
`src/dvonn_ddqn.py` via a shallow embedding in Lean 4.

Conventions of the embedding:
* numpy float arithmetic is modelled by exact real arithmetic on `ℝ`;
* a prediction vector (one action-value per action) is a `List ℝ`;
* a state (the preprocessed image) is a `List ℝ`;
* the terminal sentinel `None` for the next state is `Option.none`;
* randomness is passed in explicitly: `random.uniform(a, b)` is modelled as
  `a + (b - a) * u i`, with `u i ∈ [0, 1]` the i-th draw of `random.random()`;
* `Brain.model` / `Brain.model_` (the online and target Keras networks) are
  opaque functions `List ℝ → List ℝ`; `Brain.train` is not needed by any claim
  and is omitted.
-/

noncomputable section

namespace DDQN

/-- First index of the maximum of a list, as computed by `numpy.argmax`
(ties resolved to the earliest index; `0` on the empty list, where numpy
would raise instead). -/
def npArgmax : List ℝ → ℕ
  | [] => 0
  | [_] => 0
  | x :: y :: ys =>
    if x < (y :: ys).getD (npArgmax (y :: ys)) 0 then npArgmax (y :: ys) + 1 else 0

/-- `GAMMA = 0.99` (source line 127). -/
def GAMMA : ℝ := 0.99

/-- `MAX_EPSILON = 1` (source line 129). -/
def MAX_EPSILON : ℝ := 1

/-- `MIN_EPSILON = 0.1` (source line 130). -/
def MIN_EPSILON : ℝ := 0.1

/-- `EXPLORATION_STOP = 500000` (source line 132). -/
def EXPLORATION_STOP : ℕ := 500000

/-- `LAMBDA = - math.log(0.01) / EXPLORATION_STOP` (source line 133). -/
def LAMBDA : ℝ := - Real.log 0.01 / EXPLORATION_STOP

/-- `UPDATE_TARGET_FREQUENCY = 10000` (source line 135). -/
def UPDATE_TARGET_FREQUENCY : ℕ := 10000

/-- `MEMORY_CAPACITY = 200000` (source line 123). -/
def MEMORY_CAPACITY : ℕ := 200000

/-- `BATCH_SIZE = 1` (source line 125). -/
def BATCH_SIZE : ℕ := 1

/-- A stored transition `(s, a, r, s_)`; `s_ = none` is the terminal
sentinel (source stores plain 4-tuples, `observe`'s comment: "in
(s, a, r, s_) format"). -/
structure Transition where
  s : List ℝ
  a : ℕ
  r : ℝ
  s_ : Option (List ℝ)

/-- Modelled from the spec: the `SumTree` module is imported by the source
(`from . import SumTree`) but its file is not among the provided sources.
Following spec section 4.1 and the index arithmetic of section 9
(children of node `i` are `2i+1, 2i+2`), it is a fixed-capacity binary sum
tree stored as a flat array of `2*capacity - 1` nodes (node 0 the root,
the last `capacity` entries the leaves), plus a payload array and a
circular write cursor.  Payload slots never yet written hold `none`
(modelling the zero-initialised data array). -/
structure SumTree (α : Type) where
  capacity : ℕ
  tree : List ℝ
  data : List (Option α)
  write : ℕ

/-- Modelled from the spec: a fresh tree has all node sums zero and an
empty payload array, write cursor at 0. -/
def SumTree.init (capacity : ℕ) : SumTree α :=
  { capacity := capacity
    tree := List.replicate (2 * capacity - 1) 0
    data := List.replicate capacity none
    write := 0 }

/-- Modelled from the spec: "propagates the priority delta up to the root"
(section 4.1); from node `idx`, add `change` to the parent `(idx-1)/2` and
recurse until the root is reached. -/
def SumTree.propagate (idx : ℕ) (change : ℝ) (t : List ℝ) : List ℝ :=
  let t2 := t.set ((idx - 1) / 2) (t.getD ((idx - 1) / 2) 0 + change)
  if h : (idx - 1) / 2 = 0 then t2 else SumTree.propagate ((idx - 1) / 2) change t2
termination_by idx
decreasing_by omega

/-- Modelled from the spec: `update(index, new_priority)` "replaces the
leaf's priority and propagates the signed delta to the root" (section 4.1). -/
def SumTree.update (st : SumTree α) (idx : ℕ) (p : ℝ) : SumTree α :=
  { st with tree := SumTree.propagate idx (p - st.tree.getD idx 0) (st.tree.set idx p) }

/-- Modelled from the spec: `add(priority, payload)` "inserts at the current
write cursor (starts at 0, wraps at capacity), overwriting any existing leaf
there; propagates the priority delta up to the root" (section 4.1).  Leaf
for write-slot `w` sits at flat index `w + capacity - 1`. -/
def SumTree.add (st : SumTree α) (p : ℝ) (x : α) : SumTree α :=
  let idx := st.write + st.capacity - 1
  let st2 := SumTree.update { st with data := st.data.set st.write (some x) } idx p
  let w := st.write + 1
  { st2 with write := if st.capacity ≤ w then 0 else w }

/-- Modelled from the spec: the descent of `get(cumulative_value)` — "descends
from the root choosing the left child if `cumulative_value ≤ left.value`,
otherwise subtracts `left.value` and descends right" (section 4.1); a node
without a left child inside the array is a leaf. -/
def SumTree.retrieve (t : List ℝ) (idx : ℕ) (s : ℝ) : ℕ :=
  if _h : t.length ≤ 2 * idx + 1 then idx
  else if s ≤ t.getD (2 * idx + 1) 0 then SumTree.retrieve t (2 * idx + 1) s
  else SumTree.retrieve t (2 * idx + 2) (s - t.getD (2 * idx + 1) 0)
termination_by t.length - idx
decreasing_by all_goals omega

/-- Modelled from the spec: `total()` "returns the root's accumulated value"
(section 4.1). -/
def SumTree.total (st : SumTree α) : ℝ := st.tree.getD 0 0

/-- Modelled from the spec: `get(cumulative_value)` "returns
`(leaf_index, leaf_priority, payload)`" (section 4.1); the payload slot of
flat leaf `idx` is `idx - (capacity - 1)`. -/
def SumTree.get (st : SumTree α) (s : ℝ) : ℕ × ℝ × Option α :=
  let idx := SumTree.retrieve st.tree 0 s
  (idx, st.tree.getD idx 0, st.data.getD (idx + 1 - st.capacity) none)

/-- `Memory` wraps the sum tree (source lines 90-120). -/
structure Memory (α : Type) where
  tree : SumTree α

/-- `Memory.e = 0.01` (source line 91). -/
def Memory.e : ℝ := 0.01

/-- `Memory.a = 0.6` (source line 92). -/
def Memory.a : ℝ := 0.6

/-- `Memory.__init__` (source lines 94-95). -/
def Memory.init (capacity : ℕ) : Memory α := ⟨SumTree.init capacity⟩

/-- `Memory._getPriority`: `(error + self.e) ** self.a` (source lines 97-98);
the exponent is the real power `Real.rpow`. -/
def Memory._getPriority (error : ℝ) : ℝ := (error + Memory.e) ^ Memory.a

/-- `Memory.add` (source lines 100-102). -/
def Memory.add (m : Memory α) (error : ℝ) (sample : α) : Memory α :=
  ⟨m.tree.add (Memory._getPriority error) sample⟩

/-- The i-th cumulative value drawn by `Memory.sample(n)` (source lines
106-112): `segment = total / n`, `a = segment * i`, `b = segment * (i+1)`,
`s = random.uniform(a, b) = a + (b - a) * u i` where `u i` is the i-th
`random.random()` draw. -/
def Memory.sampleDraw (m : Memory α) (u : ℕ → ℝ) (n : ℕ) (i : ℕ) : ℝ :=
  let segment := m.tree.total / n
  let a := segment * i
  let b := segment * (i + 1)
  a + (b - a) * u i

/-- `Memory.sample` (source lines 104-116): one uniform draw per segment,
one tree query per draw, collecting `(idx, data)` pairs in segment order. -/
def Memory.sample (m : Memory α) (u : ℕ → ℝ) (n : ℕ) : List (ℕ × Option α) :=
  (List.range n).map fun i =>
    let r := m.tree.get (m.sampleDraw u n i)
    (r.1, r.2.2)

/-- `Memory.update` (source lines 118-120). -/
def Memory.update (m : Memory α) (idx : ℕ) (error : ℝ) : Memory α :=
  ⟨m.tree.update idx (Memory._getPriority error)⟩

/-- The `Brain` (source lines 52-87); the two Keras networks are opaque
prediction functions: `model` is the online network, `model_` the target
network. -/
structure Brain where
  stateCnt : ℕ
  actionCnt : ℕ
  model : List ℝ → List ℝ
  model_ : List ℝ → List ℝ

/-- `Brain.predict(s, target)` (source lines 77-81). -/
def Brain.predict (b : Brain) (s : List ℝ) (target : Bool) : List ℝ :=
  if target then b.model_ s else b.model s

/-- `Brain.predictOne` (source lines 83-84); reshaping/flattening is a
no-op in the list model. -/
def Brain.predictOne (b : Brain) (s : List ℝ) (target : Bool) : List ℝ :=
  b.predict s target

/-- `Brain.updateTargetModel` (source lines 86-87): the online weights are
copied into the target network. -/
def Brain.updateTargetModel (b : Brain) : Brain :=
  { b with model_ := b.model }

/-- A Python-level runtime failure surfaced by the embedding. -/
inductive PyError where
  | attributeError
deriving DecidableEq

/-- The `Agent` (source lines 137-234).  `memory` is an `Option` because
`Agent.__init__` does NOT create one: source line 147 is the commented-out
`# self.memory = Memory(MEMORY_CAPACITY)`, so a fresh agent has no
`memory` attribute unless a caller assigns one externally. -/
structure Agent where
  stateCnt : ℕ
  actionCnt : ℕ
  brain : Brain
  memory : Option (Memory Transition)
  steps : ℕ
  epsilon : ℝ

/-- `Agent.__init__` (source lines 141-147): stores the dimensions, builds a
fresh `Brain` (whose freshly initialised networks are the opaque parameters
`model`, `model_`), leaves `self.memory` unset (line 147 commented out);
the class attributes give `steps = 0` and `epsilon = MAX_EPSILON`
(source lines 138-139). -/
def Agent.init (stateCnt actionCnt : ℕ) (model model_ : List ℝ → List ℝ) : Agent :=
  { stateCnt := stateCnt
    actionCnt := actionCnt
    brain := { stateCnt := stateCnt, actionCnt := actionCnt, model := model, model_ := model_ }
    memory := none
    steps := 0
    epsilon := MAX_EPSILON }

/-- `no_state = numpy.zeros(self.stateCnt)` (source line 167). -/
def Agent.noState (stateCnt : ℕ) : List ℝ := List.replicate stateCnt 0

/-- `Agent.getStateAndPrediction` (source lines 183-198) with the module
constant `GAMMA` abstracted as a parameter `gamma`, to express facts that
hold for every discount: given the transition `o = (s, a, r, s_)`, the
online prediction `p` at `s`, the target-network prediction `pTarget_` at
`s_` and the online prediction `p_` at `s_`, it overwrites entry `a` of
`t = p` with `r` (terminal) or `r + gamma * pTarget_[argmax p_]`
(non-terminal) and reports `|oldVal - t[a]|` as the error. -/
def getStateAndPredictionG (gamma : ℝ) (o : Transition) (p pTarget_ p_ : List ℝ) :
    List ℝ × List ℝ × ℝ :=
  let oldVal := p.getD o.a 0
  let newVal :=
    match o.s_ with
    | none => o.r
    | some _ => o.r + gamma * pTarget_.getD (npArgmax p_) 0
  (o.s, p.set o.a newVal, |oldVal - newVal|)

/-- `Agent.getStateAndPrediction` (source lines 183-198) at the module
constant `GAMMA = 0.99`. -/
def Agent.getStateAndPrediction (o : Transition) (p pTarget_ p_ : List ℝ) :
    List ℝ × List ℝ × ℝ :=
  getStateAndPredictionG GAMMA o p pTarget_ p_

/-- `Agent._getTargets` (source lines 201-223) restricted to its pure data
flow: per batch element `(idx, o)`, the batched network calls
(`getPredictions`, source lines 176-181) provide `p = model(s)`,
`p_ = model(s_)`, `pTarget_ = model_(s_)` — with `s_` replaced by
`no_state` for terminal transitions (`extract_states`, source lines
166-174) — and `getStateAndPrediction` produces the `(x, y, error)` row. -/
def Agent.getTargets (ag : Agent) (batch : List (ℕ × Transition)) :
    List (List ℝ × List ℝ × ℝ) :=
  batch.map fun b =>
    let o := b.2
    let s2 := o.s_.getD (Agent.noState ag.stateCnt)
    Agent.getStateAndPrediction o (ag.brain.model o.s) (ag.brain.model_ s2) (ag.brain.model s2)

/-- `epsilon` after `n` steps: `MIN_EPSILON + (MAX_EPSILON - MIN_EPSILON) *
math.exp(-LAMBDA * self.steps)` (source line 164). -/
def epsilonAt (n : ℕ) : ℝ :=
  MIN_EPSILON + (MAX_EPSILON - MIN_EPSILON) * Real.exp (-LAMBDA * n)

/-- The successful path of `Agent.observe` (source lines 155-164), taken
when `self.memory` is bound to `m`: the initial error comes from the
batch-1 `_getTargets` call, the transition is added to memory with that
error, the target network is refreshed when `steps % UPDATE_TARGET_FREQUENCY
== 0` (checked BEFORE the increment), then `steps` is incremented and
`epsilon` recomputed. -/
def Agent.observeOk (ag : Agent) (m : Memory Transition) (sample : Transition) : Agent :=
  let err0 := ((ag.getTargets [(0, sample)]).getD 0 ([], [], 0)).2.2
  { ag with
    memory := some (m.add err0 sample)
    brain := if ag.steps % UPDATE_TARGET_FREQUENCY = 0 then ag.brain.updateTargetModel else ag.brain
    steps := ag.steps + 1
    epsilon := epsilonAt (ag.steps + 1) }

/-- `Agent.observe` (source lines 155-164).  When `self.memory` was never
assigned (as after `Agent.__init__`, whose memory line is commented out),
the attribute access `self.memory.add` raises `AttributeError`; otherwise
the call succeeds as `observeOk`. -/
def Agent.observe (ag : Agent) (sample : Transition) : Except PyError Agent :=
  match ag.memory with
  | none => .error .attributeError
  | some m => .ok (ag.observeOk m sample)

/-- A run of consecutive `observe` calls, as driven by `Environment.run`
(source lines 260-286), stopping at the first raised error. -/
def Agent.observeRun (ag : Agent) : List Transition → Except PyError Agent
  | [] => .ok ag
  | tr :: trs =>
    match ag.observe tr with
    | .error e => .error e
    | .ok ag2 => ag2.observeRun trs

/-- `Agent.act` (source lines 149-153): `coin` is the `random.random()`
draw compared against epsilon, `randA` the `random.randint(0,
self.actionCnt-1)` draw used on the exploration branch; the exploitation
branch is `numpy.argmax(self.brain.predictOne(s))`. -/
def Agent.act (ag : Agent) (coin : ℝ) (randA : ℕ) (s : List ℝ) : ℕ :=
  if coin < ag.epsilon then randA else npArgmax (ag.brain.predictOne s false)

/-- Concrete online-network predictions used as witness data. -/
def wModel : List ℝ → List ℝ := fun _ => [1, 3]

/-- Concrete target-network predictions used as witness data. -/
def wModelT : List ℝ → List ℝ := fun _ => [2, 4]

/-- A concrete two-action brain used as witness data. -/
def wBrain : Brain := ⟨2, 2, wModel, wModelT⟩

/-- A concrete agent with an attached (externally assigned) replay memory,
used as witness data. -/
def wAgent : Agent :=
  { stateCnt := 2, actionCnt := 2, brain := wBrain,
    memory := some (Memory.init 2), steps := 0, epsilon := MAX_EPSILON }

/-- A concrete non-terminal transition used as witness data. -/
def wTrN : Transition := ⟨[0, 0], 0, 1, some [5, 5]⟩

/-- A concrete terminal transition used as witness data. -/
def wTrT : Transition := ⟨[0, 0], 1, 1, none⟩

/-- A freshly initialised capacity-2 memory holding no transitions, so its
total priority is zero. -/
def wMemE : Memory Transition := Memory.init 2

/-- Maximality of `npArgmax`: the selected entry is at least every entry
of the list. -/
theorem npArgmax_le (l : List ℝ) : ∀ j, j < l.length → l.getD j 0 ≤ l.getD (npArgmax l) 0 := by
  induction l with
  | nil => simp
  | cons x xs ih =>
    cases xs with
    | nil =>
      intro j hj
      simp only [List.length_cons, List.length_nil] at hj
      interval_cases j
      · simp [npArgmax]
    | cons y ys =>
      intro j hj
      simp only [npArgmax]
      split
      · rename_i hlt
        cases j with
        | zero => simpa using le_of_lt hlt
        | succ j =>
          simp only [List.getD_cons_succ]
          exact ih j (by simpa using hj)
      · rename_i hge
        push_neg at hge
        cases j with
        | zero => simp
        | succ j =>
          simp only [List.getD_cons_succ, List.getD_cons_zero]
          exact le_trans (ih j (by simpa using hj)) hge

/-- Range of `npArgmax`: on a non-empty list the selected index is in
bounds. -/
theorem npArgmax_lt (l : List ℝ) (h : 0 < l.length) : npArgmax l < l.length := by
  induction l with
  | nil => simp at h
  | cons x xs ih =>
    cases xs with
    | nil => simp [npArgmax]
    | cons y ys =>
      simp only [npArgmax]
      split
      · have := ih (by simp)
        simpa using Nat.succ_lt_succ this
      · simp

/-- Reading back the written index of `List.set`. -/
theorem getD_set_self {α : Type} (l : List α) (i : ℕ) (v d : α) (h : i < l.length) :
    (l.set i v).getD i d = v := by
  simp [List.getD_eq_getElem?_getD, List.getElem?_set_self h]

/-- Reading an untouched index of `List.set`. -/
theorem getD_set_ne {α : Type} (l : List α) (i j : ℕ) (v d : α) (h : i ≠ j) :
    (l.set i v).getD j d = l.getD j d := by
  simp [List.getD_eq_getElem?_getD, List.getElem?_set_ne h]

/-- The TD error reported by the target computation is an absolute value,
hence non-negative: this is the shape of every error handed to
`Memory.add` and `Memory.update` by the agent. -/
theorem td_error_nonneg (o : Transition) (p pTarget_ p_ : List ℝ) :
    0 ≤ (Agent.getStateAndPrediction o p pTarget_ p_).2.2 := by
  unfold Agent.getStateAndPrediction getStateAndPredictionG
  exact abs_nonneg _

/-- The batch returned by `Memory.sample(n)` has exactly `n` entries. -/
theorem sample_length (m : Memory Transition) (u : ℕ → ℝ) (n : ℕ) :
    (m.sample u n).length = n := by
  simp [Memory.sample]

/-- The i-th entry of the sampled batch is the tree query at the i-th
draw. -/
theorem sample_getD (m : Memory Transition) (u : ℕ → ℝ) (n i : ℕ) (hi : i < n) :
    (m.sample u n).getD i (0, none)
      = ((m.tree.get (m.sampleDraw u n i)).1, (m.tree.get (m.sampleDraw u n i)).2.2) := by
  have hlen : i < (m.sample u n).length := by simpa [Memory.sample] using hi
  rw [List.getD_eq_getElem?_getD, List.getElem?_eq_getElem hlen]
  simp [Memory.sample]

/-- The decay speed constant is strictly positive. -/
theorem LAMBDA_pos : 0 < LAMBDA := by
  unfold LAMBDA
  have h : Real.log 0.01 < 0 := Real.log_neg (by norm_num) (by norm_num)
  have h2 : (0:ℝ) < (EXPLORATION_STOP : ℝ) := by norm_num [EXPLORATION_STOP]
  exact div_pos (by linarith) h2

/-- The epsilon schedule is non-increasing in the step count. -/
theorem epsilonAt_antitone (a b : ℕ) (hab : a ≤ b) : epsilonAt b ≤ epsilonAt a := by
  unfold epsilonAt
  have hl := LAMBDA_pos
  have hcast : (a:ℝ) ≤ (b:ℝ) := by exact_mod_cast hab
  have hexp : Real.exp (-LAMBDA * b) ≤ Real.exp (-LAMBDA * a) := by
    apply Real.exp_le_exp.mpr
    nlinarith
  have h09 : (0:ℝ) ≤ MAX_EPSILON - MIN_EPSILON := by norm_num [MAX_EPSILON, MIN_EPSILON]
  nlinarith [mul_le_mul_of_nonneg_left hexp h09]

/-- The epsilon schedule stays within its floor and ceiling. -/
theorem epsilonAt_bounds (n : ℕ) : MIN_EPSILON ≤ epsilonAt n ∧ epsilonAt n ≤ MAX_EPSILON := by
  unfold epsilonAt
  have hl := LAMBDA_pos
  have hc : (0:ℝ) ≤ (n:ℝ) := Nat.cast_nonneg n
  have he : Real.exp (-LAMBDA * n) ≤ 1 := by
    rw [Real.exp_le_one_iff]
    nlinarith
  have hp : 0 < Real.exp (-LAMBDA * n) := Real.exp_pos _
  have c1 : MIN_EPSILON = 0.1 := rfl
  have c2 : MAX_EPSILON = 1 := rfl
  rw [c1, c2]
  constructor <;> nlinarith

/-- The epsilon schedule converges to its floor. -/
theorem epsilonAt_tendsto :
    Filter.Tendsto epsilonAt Filter.atTop (nhds MIN_EPSILON) := by
  have hl := LAMBDA_pos
  have hrw : ∀ n : ℕ, epsilonAt n
      = MIN_EPSILON + (MAX_EPSILON - MIN_EPSILON) * Real.exp (-LAMBDA) ^ n := by
    intro n
    unfold epsilonAt
    rw [mul_comm (-LAMBDA) (n:ℝ), Real.exp_nat_mul]
  have hlim : Filter.Tendsto (fun n : ℕ =>
      MIN_EPSILON + (MAX_EPSILON - MIN_EPSILON) * Real.exp (-LAMBDA) ^ n)
      Filter.atTop (nhds (MIN_EPSILON + (MAX_EPSILON - MIN_EPSILON) * 0)) := by
    apply Filter.Tendsto.const_add
    apply Filter.Tendsto.const_mul
    exact tendsto_pow_atTop_nhds_zero_of_lt_one (Real.exp_nonneg _)
      (by rw [Real.exp_lt_one_iff]; linarith)
  have := hlim.congr (fun n => (hrw n).symm)
  simpa using this

/-- An observe call never changes the online network. -/
theorem observeOk_model (ag : Agent) (m : Memory Transition) (tr : Transition) :
    (ag.observeOk m tr).brain.model = ag.brain.model := by
  by_cases hc : ag.steps % UPDATE_TARGET_FREQUENCY = 0 <;>
    simp [Agent.observeOk, Brain.updateTargetModel, hc]

/-- Induction workhorse for the sync cadence: a run of observe calls from
an agent with an attached memory succeeds, never changes the online
network, and its effect on the target network is determined by whether
some call of the run was entered at a step that is a multiple of the
cadence. -/
theorem observeRun_sync (trs : List Transition) :
    ∀ (ag : Agent) (m : Memory Transition), ag.memory = some m →
    ∃ ag', ag.observeRun trs = Except.ok ag'
      ∧ ag'.brain.model = ag.brain.model
      ∧ ((∀ i, i < trs.length → (ag.steps + i) % UPDATE_TARGET_FREQUENCY ≠ 0) →
          ag'.brain.model_ = ag.brain.model_)
      ∧ ((∃ i, i < trs.length ∧ (ag.steps + i) % UPDATE_TARGET_FREQUENCY = 0) →
          ag'.brain.model_ = ag.brain.model) := by
  induction trs with
  | nil =>
    intro ag m h
    exact ⟨ag, rfl, rfl, fun _ => rfl, fun ⟨i, hi, _⟩ => absurd hi (by simp)⟩
  | cons tr trs ih =>
    intro ag m h
    have hobs : ag.observe tr = Except.ok (ag.observeOk m tr) := by
      unfold Agent.observe
      rw [h]
    have hmem2 : (ag.observeOk m tr).memory
        = some (m.add (((ag.getTargets [(0, tr)]).getD 0 ([], [], 0)).2.2) tr) := rfl
    have hsteps2 : (ag.observeOk m tr).steps = ag.steps + 1 := rfl
    have hrun1 : ag.observeRun (tr :: trs) = (ag.observeOk m tr).observeRun trs := by
      show (match ag.observe tr with
        | Except.error e => Except.error e
        | Except.ok ag2 => ag2.observeRun trs) = (ag.observeOk m tr).observeRun trs
      rw [hobs]
    obtain ⟨ag', hrun, hmodel, hkeep, hsync⟩ := ih (ag.observeOk m tr) _ hmem2
    refine ⟨ag', by rw [hrun1, hrun], by rw [hmodel, observeOk_model], ?_, ?_⟩
    · intro hnone
      have hc : ag.steps % UPDATE_TARGET_FREQUENCY ≠ 0 := by
        have := hnone 0 (by simp)
        simpa using this
      have htail : ∀ i, i < trs.length → ((ag.observeOk m tr).steps + i) % UPDATE_TARGET_FREQUENCY ≠ 0 := by
        intro i hi
        rw [hsteps2]
        have := hnone (i + 1) (by simpa using Nat.succ_lt_succ hi)
        simpa [Nat.add_assoc, Nat.add_comm 1 i] using this
      rw [hkeep htail]
      simp [Agent.observeOk, Brain.updateTargetModel, hc]
    · intro hex
      by_cases hc : ag.steps % UPDATE_TARGET_FREQUENCY = 0
      · have hm2 : (ag.observeOk m tr).brain.model_ = ag.brain.model := by
          simp [Agent.observeOk, Brain.updateTargetModel, hc]
        by_cases hex2 : ∃ i, i < trs.length ∧ ((ag.observeOk m tr).steps + i) % UPDATE_TARGET_FREQUENCY = 0
        · rw [hsync hex2, observeOk_model]
        · have htail : ∀ i, i < trs.length →
              ((ag.observeOk m tr).steps + i) % UPDATE_TARGET_FREQUENCY ≠ 0 := by
            intro i hi hbad
            exact hex2 ⟨i, hi, hbad⟩
          rw [hkeep htail, hm2]
      · obtain ⟨i, hi, hzero⟩ := hex
        cases i with
        | zero => exact absurd (by simpa using hzero) hc
        | succ j =>
          have hj : j < trs.length := by simpa using Nat.lt_of_succ_lt_succ hi
          have hz2 : ((ag.observeOk m tr).steps + j) % UPDATE_TARGET_FREQUENCY = 0 := by
            rw [hsteps2]
            have : ag.steps + (j + 1) = ag.steps + 1 + j := by omega
            rw [this] at hzero
            exact hzero
          have := hsync ⟨j, hj, hz2⟩
          rw [this, observeOk_model]

/-- Claim C1: for every sampled transition whose next state is not the
terminal sentinel, the regression target at the taken action equals
`r + GAMMA * Q_target(s2, aStar)` where `aStar = argmax Q_online(s2)`:
action selection uses the online network (`model`, and `npArgmax` indeed
picks a maximising index of its prediction), value estimation uses the
target network (`model_`). -/
theorem double_dqn_bootstrap_target (ag : Agent) (idx : ℕ) (o : Transition) (s2 : List ℝ)
    (hs : o.s_ = some s2) (ha : o.a < (ag.brain.model o.s).length) :
    ((ag.getTargets [(idx, o)]).getD 0 ([], [], 0)).2.1.getD o.a 0
      = o.r + GAMMA * (ag.brain.model_ s2).getD (npArgmax (ag.brain.model s2)) 0
    ∧ ∀ j, j < (ag.brain.model s2).length →
        (ag.brain.model s2).getD j 0 ≤ (ag.brain.model s2).getD (npArgmax (ag.brain.model s2)) 0 := by
  constructor
  · simp only [Agent.getTargets, List.map_cons, List.map_nil, List.getD_cons_zero,
      Agent.getStateAndPrediction, getStateAndPredictionG, hs, Option.getD_some]
    exact getD_set_self _ _ _ _ ha
  · exact npArgmax_le _

/-- Witness for C1 at a concrete non-terminal transition and concrete
prediction vectors: the target entry is `1 + GAMMA * 4` with the online
argmax selecting index 1. -/
theorem double_dqn_bootstrap_target_witness :
    ((wAgent.getTargets [(0, wTrN)]).getD 0 ([], [], 0)).2.1.getD wTrN.a 0
      = wTrN.r + GAMMA * (wAgent.brain.model_ [5, 5]).getD (npArgmax (wAgent.brain.model [5, 5])) 0
    ∧ (wAgent.brain.model [5, 5]).getD 0 0
        ≤ (wAgent.brain.model [5, 5]).getD (npArgmax (wAgent.brain.model [5, 5])) 0 := by
  have h := double_dqn_bootstrap_target wAgent 0 wTrN [5, 5] rfl
    (by simp [wAgent, wBrain, wModel, wTrN])
  exact ⟨h.1, h.2 0 (by simp [wAgent, wBrain, wModel])⟩

/-- Claim C2: for every transition whose next state is the terminal
sentinel, the regression target at the taken action equals the stored
(clipped) reward exactly, for an arbitrary discount `gamma` — hence
independently of `GAMMA` — and in particular at `GAMMA` itself. -/
theorem terminal_target_is_reward (gamma : ℝ) (o : Transition) (p pTarget_ p_ : List ℝ)
    (ha : o.a < p.length) (hs : o.s_ = none) :
    (getStateAndPredictionG gamma o p pTarget_ p_).2.1.getD o.a 0 = o.r ∧
    (Agent.getStateAndPrediction o p pTarget_ p_).2.1.getD o.a 0 = o.r := by
  unfold Agent.getStateAndPrediction getStateAndPredictionG
  simp only [hs]
  exact ⟨getD_set_self _ _ _ _ ha, getD_set_self _ _ _ _ ha⟩

/-- Witness for C2 at a concrete terminal transition, with the unused
discount instantiated to `5`. -/
theorem terminal_target_is_reward_witness :
    (getStateAndPredictionG 5 wTrT [1, 3] [2, 4] [9, 9]).2.1.getD wTrT.a 0 = wTrT.r ∧
    (Agent.getStateAndPrediction wTrT [1, 3] [2, 4] [9, 9]).2.1.getD wTrT.a 0 = wTrT.r :=
  terminal_target_is_reward 5 wTrT [1, 3] [2, 4] [9, 9] (by simp [wTrT]) rfl

/-- Claim C3 (code bug): for every agent exactly as constructed by
`Agent.__init__` — which leaves `self.memory` unset because source line 147
`# self.memory = Memory(MEMORY_CAPACITY)` is commented out — and every
transition, `Agent.observe` raises `AttributeError` at `self.memory.add`
instead of inserting the transition, incrementing the step counter and
recomputing epsilon. -/
theorem observe_after_init_raises (sc ac : ℕ) (model model_ : List ℝ → List ℝ)
    (tr : Transition) :
    (Agent.init sc ac model model_).observe tr = Except.error PyError.attributeError := rfl

/-- Claim C4: for the fixed floor `Memory.e = 0.01` and exponent
`Memory.a = 0.6`, the priority computed from a TD error is
`(|error| + e) ^ a`, strictly positive, and strictly increasing in the
error magnitude.  The hypotheses `0 ≤ e1`, `0 ≤ e2` reflect that every
call site passes an absolute value (`abs(oldVal - t[a])` in
`getStateAndPrediction`, `abs(reward)` in `RandomAgent.observe`); the
source itself applies no `abs` inside `_getPriority`. -/
theorem priority_positive_monotone (e1 e2 : ℝ) (h1 : 0 ≤ e1) (h2 : 0 ≤ e2) :
    Memory._getPriority e1 = (|e1| + Memory.e) ^ Memory.a
    ∧ 0 < Memory._getPriority e1
    ∧ (|e2| < |e1| → Memory._getPriority e2 < Memory._getPriority e1) := by
  unfold Memory._getPriority
  refine ⟨by rw [abs_of_nonneg h1], ?_, ?_⟩
  · apply Real.rpow_pos_of_pos
    have : (0:ℝ) < Memory.e := by norm_num [Memory.e]
    linarith
  · intro hlt
    rw [abs_of_nonneg h1, abs_of_nonneg h2] at hlt
    apply Real.rpow_lt_rpow
    · have : (0:ℝ) < Memory.e := by norm_num [Memory.e]
      linarith
    · linarith
    · norm_num [Memory.a]

/-- Witness for C4 at the concrete errors `1` and `0`. -/
theorem priority_positive_monotone_witness :
    Memory._getPriority 1 = (|(1:ℝ)| + Memory.e) ^ Memory.a
    ∧ 0 < Memory._getPriority 1
    ∧ Memory._getPriority 0 < Memory._getPriority 1 := by
  have h := priority_positive_monotone 1 0 (by norm_num) (by norm_num)
  exact ⟨h.1, h.2.1, h.2.2 (by norm_num)⟩

/-- Claim C5: for every `n ≥ 1`, `Memory.sample(n)` partitions the total
priority range into `n` equal-width segments, draws one uniform value in
the i-th segment `[total*i/n, total*(i+1)/n]`, queries the tree once per
draw, and returns exactly `n` `(index, transition)` pairs in segment
order. -/
theorem sample_stratified (m : Memory Transition) (u : ℕ → ℝ) (n : ℕ)
    (hn : 1 ≤ n) (hu : ∀ i, 0 ≤ u i ∧ u i ≤ 1) (hT : 0 ≤ m.tree.total) :
    (m.sample u n).length = n ∧
    ∀ i, i < n →
      m.tree.total * i / n ≤ m.sampleDraw u n i ∧
      m.sampleDraw u n i ≤ m.tree.total * (i + 1) / n ∧
      (m.sample u n).getD i (0, none)
        = ((m.tree.get (m.sampleDraw u n i)).1, (m.tree.get (m.sampleDraw u n i)).2.2) := by
  refine ⟨sample_length m u n, fun i hi => ?_⟩
  have hn0 : (0:ℝ) < n := by exact_mod_cast hn
  have hseg : 0 ≤ m.tree.total / n := div_nonneg hT (le_of_lt hn0)
  have hdraw : m.sampleDraw u n i
      = (m.tree.total / n) * i + (m.tree.total / n) * u i := by
    unfold Memory.sampleDraw
    ring
  refine ⟨?_, ?_, sample_getD m u n i hi⟩
  · rw [hdraw]
    have h1 : m.tree.total * i / n = (m.tree.total / n) * i := by ring
    rw [h1]
    nlinarith [mul_nonneg hseg (hu i).1]
  · rw [hdraw]
    have h1 : m.tree.total * (i + 1) / n = (m.tree.total / n) * i + (m.tree.total / n) := by ring
    rw [h1]
    nlinarith [mul_le_mul_of_nonneg_left (hu i).2 hseg]

/-- Witness for C5 at a concrete memory, `n = 1` and the constant draw
`1/2`. -/
theorem sample_stratified_witness :
    (wMemE.sample (fun _ => 1/2) 1).length = 1 ∧
    wMemE.tree.total * ((0:ℕ):ℝ) / ((1:ℕ):ℝ) ≤ wMemE.sampleDraw (fun _ => 1/2) 1 0 ∧
    (wMemE.sample (fun _ => 1/2) 1).getD 0 (0, none)
      = ((wMemE.tree.get (wMemE.sampleDraw (fun _ => 1/2) 1 0)).1,
         (wMemE.tree.get (wMemE.sampleDraw (fun _ => 1/2) 1 0)).2.2) := by
  have hT : (0:ℝ) ≤ wMemE.tree.total := by
    simp [wMemE, Memory.init, SumTree.init, SumTree.total]
  have h := sample_stratified wMemE (fun _ => 1/2) 1 le_rfl (fun i => by norm_num) hT
  have h0 := h.2 0 one_pos
  exact ⟨h.1, h0.1, h0.2.2⟩

/-- Claim C6: in the per-transition target computation, every entry of the
regression target vector other than the taken action equals the online
prediction unchanged; only index `a` is overwritten (the vector length is
also preserved). -/
theorem untouched_entries_unchanged (o : Transition) (p pTarget_ p_ : List ℝ) (j : ℕ)
    (hne : j ≠ o.a) :
    (Agent.getStateAndPrediction o p pTarget_ p_).2.1.getD j 0 = p.getD j 0 ∧
    (Agent.getStateAndPrediction o p pTarget_ p_).2.1.length = p.length := by
  unfold Agent.getStateAndPrediction getStateAndPredictionG
  exact ⟨getD_set_ne _ _ _ _ _ (Ne.symm hne), by simp⟩

/-- Witness for C6 at a concrete transition with taken action 1, checking
entry 0. -/
theorem untouched_entries_unchanged_witness :
    (Agent.getStateAndPrediction wTrT [1, 3] [2, 4] [9, 9]).2.1.getD 0 0 = ([1, 3] : List ℝ).getD 0 0 ∧
    (Agent.getStateAndPrediction wTrT [1, 3] [2, 4] [9, 9]).2.1.length = ([1, 3] : List ℝ).length :=
  untouched_entries_unchanged wTrT [1, 3] [2, 4] [9, 9] 0 (by simp [wTrT])

/-- Claim C7: after every (successful) `observe` call the exploration rate
equals `MIN_EPSILON + (MAX_EPSILON - MIN_EPSILON) * exp(-LAMBDA * steps)`
at the incremented step counter; the schedule is non-increasing in the
step count, always lies in `[MIN_EPSILON, MAX_EPSILON]`, and tends to
`MIN_EPSILON` as the step count grows. -/
theorem epsilon_decay (ag : Agent) (m : Memory Transition) (tr : Transition)
    (h : ag.memory = some m) :
    ag.observe tr = Except.ok (ag.observeOk m tr)
    ∧ (ag.observeOk m tr).steps = ag.steps + 1
    ∧ (ag.observeOk m tr).epsilon = epsilonAt ((ag.observeOk m tr).steps)
    ∧ (∀ a b : ℕ, a ≤ b → epsilonAt b ≤ epsilonAt a)
    ∧ (∀ n : ℕ, MIN_EPSILON ≤ epsilonAt n ∧ epsilonAt n ≤ MAX_EPSILON)
    ∧ Filter.Tendsto epsilonAt Filter.atTop (nhds MIN_EPSILON) := by
  refine ⟨?_, rfl, rfl, epsilonAt_antitone, epsilonAt_bounds, epsilonAt_tendsto⟩
  unfold Agent.observe
  rw [h]

/-- Witness for C7: one concrete successful observe call lands exactly on
the epsilon schedule at step 1. -/
theorem epsilon_decay_witness :
    (wAgent.observeOk (Memory.init 2) wTrT).epsilon
      = epsilonAt ((wAgent.observeOk (Memory.init 2) wTrT).steps) :=
  (epsilon_decay wAgent (Memory.init 2) wTrT rfl).2.2.1

/-- Claim C8: during a run of `observe` calls the online parameters are
cloned into the target network exactly on the calls entered with a step
counter that is a multiple of `UPDATE_TARGET_FREQUENCY`, and never
otherwise: if no call of the run starts at such a step the target network
is unchanged across the whole run, while if some call does the target
network afterwards equals the online network (which `observe` itself never
modifies). -/
theorem target_sync_cadence (ag : Agent) (m : Memory Transition) (trs : List Transition)
    (ag' : Agent) (h : ag.memory = some m) (hrun : ag.observeRun trs = Except.ok ag') :
    ag'.brain.model = ag.brain.model
    ∧ ((∀ i, i < trs.length → (ag.steps + i) % UPDATE_TARGET_FREQUENCY ≠ 0) →
        ag'.brain.model_ = ag.brain.model_)
    ∧ ((∃ i, i < trs.length ∧ (ag.steps + i) % UPDATE_TARGET_FREQUENCY = 0) →
        ag'.brain.model_ = ag.brain.model) := by
  obtain ⟨ag2, hrun2, hm, hk, hs⟩ := observeRun_sync trs ag m h
  rw [hrun2] at hrun
  cases hrun
  exact ⟨hm, hk, hs⟩

/-- Witness for C8: a one-call run starting at step 0 (a multiple of the
cadence) clones the online network into the target network. -/
theorem target_sync_cadence_witness :
    (wAgent.observeOk (Memory.init 2) wTrT).brain.model = wAgent.brain.model
    ∧ (wAgent.observeOk (Memory.init 2) wTrT).brain.model_ = wAgent.brain.model := by
  have h := target_sync_cadence wAgent (Memory.init 2) [wTrT]
    (wAgent.observeOk (Memory.init 2) wTrT) rfl rfl
  refine ⟨h.1, h.2.2 ⟨0, by simp, ?_⟩⟩
  simp [wAgent, UPDATE_TARGET_FREQUENCY]

/-- Claim C9 counterexample: sampling one element from a freshly created
(empty, zero-total-priority) memory returns a normal one-element batch —
the leftmost leaf index with its never-written default payload — rather
than reporting an empty-buffer failure. -/
theorem sample_empty_returns_batch :
    wMemE.sample (fun _ => 0) 1 = [(1, none)] := by
  have htree : wMemE.tree.tree = [0, 0, 0] := by
    simp [wMemE, Memory.init, SumTree.init]
  have hretr : SumTree.retrieve [(0:ℝ), 0, 0] 0 0 = 1 := by
    rw [SumTree.retrieve]; norm_num
    rw [SumTree.retrieve]; norm_num
  simp [Memory.sample, Memory.sampleDraw, SumTree.get, SumTree.total, htree, hretr,
    wMemE, Memory.init, SumTree.init]

/-- Claim C9 (amended): for every `n ≥ 1`, `Memory.sample(n)` on a memory
whose total priority is zero does NOT report any distinct failure: it
proceeds normally — the division is by `n`, not by the total, every
segment collapses to `[0, 0]`, every draw is `0` — and returns `n` pairs,
each the tree query at cumulative value `0`. -/
theorem sample_zero_total_proceeds (m : Memory Transition) (u : ℕ → ℝ) (n : ℕ)
    (_hn : 1 ≤ n) (hT : m.tree.total = 0) :
    (m.sample u n).length = n ∧
    ∀ i, i < n →
      (m.sample u n).getD i (0, none) = ((m.tree.get 0).1, (m.tree.get 0).2.2) := by
  have hdraw : ∀ i, m.sampleDraw u n i = 0 := by
    intro i
    unfold Memory.sampleDraw
    rw [hT]
    ring
  refine ⟨sample_length m u n, fun i hi => ?_⟩
  rw [sample_getD m u n i hi, hdraw i]

/-- Witness for C9's amended statement at the concrete empty memory and
`n = 1`. -/
theorem sample_zero_total_proceeds_witness :
    (wMemE.sample (fun _ => 0) 1).length = 1 ∧
    (wMemE.sample (fun _ => 0) 1).getD 0 (0, none)
      = ((wMemE.tree.get 0).1, (wMemE.tree.get 0).2.2) := by
  have hT : wMemE.tree.total = 0 := by
    simp [wMemE, Memory.init, SumTree.init, SumTree.total]
  have h := sample_zero_total_proceeds wMemE (fun _ => 0) 1 le_rfl hT
  exact ⟨h.1, h.2 0 one_pos⟩

/-- Claim C10: for an agent with at least one action, `act` returns a
valid action index below `actionCnt` in both branches: the exploration
branch returns the `randint(0, actionCnt-1)` draw, and the exploitation
branch returns the argmax index of the online prediction vector of length
`actionCnt`. -/
theorem act_action_in_range (ag : Agent) (coin : ℝ) (randA : ℕ) (s : List ℝ)
    (h1 : 1 ≤ ag.actionCnt) (h2 : randA ≤ ag.actionCnt - 1)
    (h3 : (ag.brain.model s).length = ag.actionCnt) :
    ag.act coin randA s < ag.actionCnt
    ∧ (coin < ag.epsilon → ag.act coin randA s = randA)
    ∧ (ag.epsilon ≤ coin → ag.act coin randA s = npArgmax (ag.brain.predictOne s false)) := by
  have hlen : npArgmax (ag.brain.predictOne s false) < ag.actionCnt := by
    have hp : ag.brain.predictOne s false = ag.brain.model s := by
      simp [Brain.predictOne, Brain.predict]
    rw [hp, ← h3]
    exact npArgmax_lt _ (by omega)
  unfold Agent.act
  refine ⟨?_, ?_, ?_⟩
  · split
    · omega
    · exact hlen
  · intro h
    rw [if_pos h]
  · intro h
    rw [if_neg (not_lt.mpr h)]

/-- Witness for C10 at a concrete agent: the exploration branch (coin 0,
random action 1) returns action 1, in range. -/
theorem act_action_in_range_witness :
    wAgent.act 0 1 [0, 0] < wAgent.actionCnt ∧ wAgent.act 0 1 [0, 0] = 1 := by
  have h := act_action_in_range wAgent 0 1 [0, 0]
    (by simp [wAgent]) (by simp [wAgent]) (by simp [wAgent, wBrain, wModel])
  exact ⟨h.1, h.2.1 (by simp [wAgent, MAX_EPSILON])⟩

end DDQN

end
